import Mathlib

/-
Verification of src/src/ankiscripts/restart_anki.c, a small Windows helper
that waits for a process to exit, deletes an add-on directory (or stages a
package file), and relaunches Anki.

Shallow embedding: C strings are Lean Strings (their char lists playing the
role of the byte arrays); the results of the OS calls the program makes
(OpenProcess / GetExitCodeProcess, MultiByteToWideChar, malloc,
SHFileOperationW, DeleteFileA, RemoveDirectoryA, CreateProcessA) are fields
of an environment record; each observable action (printf, Sleep, the
filesystem and process calls) is recorded as an event in a trace.  The
unbounded `while (is_process_running(pid))` loop is embedded with explicit
fuel: a run that exhausts its fuel while the process is still observed
running is `none` (the real program would still be looping).
-/

namespace RestartAnki

/-- Result of one liveness query for the target pid: whether
`OpenProcess` returns a non-NULL handle, whether `GetExitCodeProcess`
succeeds, and the exit code it reports. -/
structure ProcQuery where
  openOk : Bool
  getExitOk : Bool
  exitCode : Nat
deriving DecidableEq

/-- Windows constant STILL_ACTIVE (259). -/
def STILL_ACTIVE : Nat := 259

/-- Embedding of `is_process_running` (restart_anki.c lines 11-22):
NULL handle means false; otherwise GetExitCodeProcess must succeed and
report STILL_ACTIVE. -/
def is_process_running (q : ProcQuery) : Bool :=
  if q.openOk = false then false
  else q.getExitOk && (q.exitCode == STILL_ACTIVE)

/-- Environment: the outcomes of the OS calls the program makes.
`query k` is the result of the k-th liveness poll of the target pid. -/
structure Env where
  query : Nat → ProcQuery
  mbLen : Nat
  mallocOk : Bool
  shResult : Int
  deleteFileOk : Bool
  removeDirOk : Bool
  createProcessOk : Bool

/-- Observable actions of the program, in order. -/
inductive Event where
  | print (s : String)
  | sleep (ms : Nat)
  | shFileOp (path : String)
  | deleteFile (path : String)
  | removeDirectory (path : String)
  | createProcess (cmd : String)
deriving DecidableEq

/-- Embedding of `send_to_trash` (lines 25-59).  Returns the BOOL result
and the trace of attempted OS calls: conversion failure or malloc failure
returns FALSE with nothing attempted; otherwise SHFileOperationW is
attempted; on its failure DeleteFileA is attempted, and RemoveDirectoryA
only if DeleteFileA also failed. -/
def send_to_trash (env : Env) (path : String) : Bool × List Event :=
  if env.mbLen = 0 then (false, [])
  else if env.mallocOk = false then (false, [])
  else if env.shResult ≠ 0 then
    if env.deleteFileOk then
      (true, [Event.shFileOp path,
              Event.print "Recycle bin failed, attempting permanent deletion...\n",
              Event.deleteFile path])
    else if env.removeDirOk then
      (true, [Event.shFileOp path,
              Event.print "Recycle bin failed, attempting permanent deletion...\n",
              Event.deleteFile path, Event.removeDirectory path])
    else
      (false, [Event.shFileOp path,
               Event.print "Recycle bin failed, attempting permanent deletion...\n",
               Event.deleteFile path, Event.removeDirectory path])
  else (true, [Event.shFileOp path])

/-- Embedding of `ends_with` (lines 62-73).  `none` plays the role of a
NULL pointer.  `strlen` is the char-list length, and the final
`strcmp(str + str_len - suffix_len, suffix) == 0` is equality of the
dropped tail with the suffix. -/
def ends_with (str suffix : Option String) : Bool :=
  match str, suffix with
  | none, _ => false
  | _, none => false
  | some s, some suf =>
    if suf.data.length > s.data.length then false
    else s.data.drop (s.data.length - suf.data.length) == suf.data

/-- C `isspace` on the default locale, as used by `atol`. -/
def isCSpace (c : Char) : Bool :=
  c == ' ' || c == '\t' || c == '\n' || c == '\x0b' || c == '\x0c' || c == '\r'

/-- Digit-accumulation part of `atol`: consume leading decimal digits,
stop at the first non-digit. -/
def atolDigits : List Char → Int → Int
  | [], acc => acc
  | c :: cs, acc =>
    if c.isDigit then atolDigits cs (acc * 10 + ((c.toNat : Int) - 48))
    else acc

/-- Embedding of C `atol`: skip leading whitespace, optional single sign,
then decimal digits; a string with no digits there yields 0.  (Overflow of
the C long is undefined behaviour and not modelled; the claims only concern
the value 0.) -/
def atol (s : String) : Int :=
  match s.data.dropWhile isCSpace with
  | [] => 0
  | c :: rest =>
    if c = '-' then - atolDigits rest 0
    else if c = '+' then atolDigits rest 0
    else atolDigits (c :: rest) 0

/-- The `(DWORD)` cast in `pid = (DWORD)atol(argv[1])`: reduction mod 2^32
(two's-complement reinterpretation). -/
def toDWORD (n : Int) : Nat := (n % 4294967296).toNat

/-- `snprintf(command, 2048, ...)`: the formatted string is written
truncated to at most 2047 characters (one byte of the buffer is the
terminating NUL). -/
def snprintfTrunc (n : Nat) (s : String) : String := String.mk (s.data.take n)

/-- The full (untruncated) command text `launch_anki` formats (lines
80-87): the package path is appended only when `package_file` is non-NULL
and non-empty. -/
def fullCommand (anki_exe anki_base : String) (package_file : Option String) : String :=
  match package_file with
  | some pkg =>
    if pkg.data.length > 0 then
      "cmd /c start /B \"\" \"" ++ anki_exe ++ "\" -b \"" ++ anki_base ++ "\" \"" ++ pkg ++ "\""
    else
      "cmd /c start /B \"\" \"" ++ anki_exe ++ "\" -b \"" ++ anki_base ++ "\""
  | none =>
      "cmd /c start /B \"\" \"" ++ anki_exe ++ "\" -b \"" ++ anki_base ++ "\""

/-- Embedding of `launch_anki` (lines 76-105): build the (possibly
truncated) command, print it, call CreateProcessA on it; the BOOL result
is exactly the result of that call. -/
def launch_anki (env : Env) (anki_exe anki_base : String)
    (package_file : Option String) : Bool × List Event :=
  let command := snprintfTrunc 2047 (fullCommand anki_exe anki_base package_file)
  (env.createProcessOk,
   [Event.print ("Executing: " ++ command ++ "\n"), Event.createProcess command])

/-- The trace of `print_usage` (lines 107-117), one event per printf. -/
def print_usage (program_name : String) : List Event :=
  [Event.print ("Usage: " ++ program_name ++
      " <pid> <anki_exe> <anki_base> <addon_dir_or_package>\n"),
   Event.print "\n",
   Event.print "Arguments:\n",
   Event.print "  pid                    Process ID to wait for\n",
   Event.print "  anki_exe              Path to Anki executable\n",
   Event.print "  anki_base             Anki base data directory\n",
   Event.print "  addon_dir_or_package  Add-on directory to delete or package file to install\n"]

/-- The line printed on each iteration of the wait loop. -/
def stillMsg (pid : Nat) : String :=
  "PID " ++ toString pid ++ " still running, sleeping...\n"

/-- Embedding of the wait loop of `main` (lines 138-141), with explicit
fuel.  `k` is the index of the current poll; each iteration in which the
process is observed running prints the message and sleeps 500 ms.  Returns
the index of the first poll observing the process gone together with the
loop trace, or `none` if the fuel runs out first. -/
def waitLoop (env : Env) (pid : Nat) : (fuel : Nat) → (k : Nat) → Option (Nat × List Event)
  | 0, k => if is_process_running (env.query k) then none else some (k, [])
  | f + 1, k =>
    if is_process_running (env.query k) then
      match waitLoop env pid f (k + 1) with
      | none => none
      | some p => some (p.1, Event.print (stillMsg pid) :: Event.sleep 500 :: p.2)
    else some (k, [])

/-- The loop trace of `m` running-iterations of the wait loop. -/
def waitEvents (pid : Nat) : Nat → List Event
  | 0 => []
  | m + 1 => Event.print (stillMsg pid) :: Event.sleep 500 :: waitEvents pid m

/-- Embedding of `main` (lines 119-165).  `args` is argv (argv[0]
included).  The result is `none` when the wait loop exhausts its fuel
(the real program is still waiting), otherwise the exit code and the
full trace. -/
def runMain (env : Env) (fuel : Nat) (args : List String) :
    Option (Int × List Event) :=
  match args with
  | [_prog, pidArg, anki_exe, anki_base, addon_dir_or_package] =>
    let pid := toDWORD (atol pidArg)
    if pid = 0 then
      some (1, [Event.print "Error: Invalid PID\n"])
    else
      match waitLoop env pid fuel 0 with
      | none => none
      | some w =>
        let evs0 := Event.print ("Waiting for PID " ++ toString pid ++ " to exit...\n") ::
          w.2 ++ [Event.print ("PID " ++ toString pid ++
            " is no longer running, proceeding to launch Anki.\n")]
        let branch : Option String × List Event :=
          if ends_with (some addon_dir_or_package) (some ".ankiaddon") then
            (some addon_dir_or_package,
             [Event.print ("Installing addon from package " ++ addon_dir_or_package ++ "...\n")])
          else
            let r := send_to_trash env addon_dir_or_package
            (none,
             Event.print ("Deleting addon directory " ++ addon_dir_or_package ++ "...\n") ::
               r.2 ++ (if r.1 then []
                       else [Event.print "Warning: Failed to delete addon directory\n"]))
        let l := launch_anki env anki_exe anki_base branch.1
        if l.1 then
          some (0, evs0 ++ branch.2 ++ l.2 ++ [Event.print "Anki launched successfully\n"])
        else
          some (1, evs0 ++ branch.2 ++ l.2 ++ [Event.print "Error: Failed to launch Anki\n"])
  | _ =>
    some (1, print_usage (args.headD ""))

/-- Events of the permanent-delete fallback (DeleteFileA / RemoveDirectoryA). -/
def isFallbackEvent : Event → Bool
  | Event.deleteFile _ => true
  | Event.removeDirectory _ => true
  | _ => false

/-- Events touching the filesystem in the delete step. -/
def isDeleteEvent : Event → Bool
  | Event.shFileOp _ => true
  | Event.deleteFile _ => true
  | Event.removeDirectory _ => true
  | _ => false

/-- The launch event. -/
def isLaunchEvent : Event → Bool
  | Event.createProcess _ => true
  | _ => false

/-- First character printed by an event, if it prints. -/
def printedFirstChar : Event → Option Char
  | Event.print s => s.data.head?
  | _ => none

/-- A pid argument with no digits where `atol` looks for them: after
leading whitespace and an optional sign there is no decimal digit. -/
def nonNumeric (s : String) : Bool :=
  match s.data.dropWhile isCSpace with
  | [] => true
  | c :: rest =>
    if c = '-' ∨ c = '+' then
      match rest with
      | [] => true
      | d :: _ => !d.isDigit
    else !c.isDigit

/-- A concrete environment whose process is never observed running and
whose recycle-bin and permanent deletes all fail. -/
def envIdle : Env :=
  ⟨fun _ => ⟨false, false, 0⟩, 1, true, 1, false, false, true⟩

/-- A concrete environment whose process is observed running for the
first two polls and gone from the third on. -/
def envBusy : Env :=
  ⟨fun k => if k < 2 then ⟨true, true, 259⟩ else ⟨false, false, 0⟩,
   1, true, 0, false, false, true⟩

/-- A concrete environment in which every delete succeeds at the
recycle-bin stage and CreateProcessA fails. -/
def envNoLaunch : Env :=
  ⟨fun _ => ⟨false, false, 0⟩, 1, true, 0, false, false, false⟩

/-- A 3000-character path, long enough to overflow the 2048-byte command
buffer of `launch_anki`. -/
def longPath : String := String.mk (List.replicate 3000 'a')

/-- An event that only writes to standard output. -/
def isPrint : Event → Bool
  | Event.print _ => true
  | _ => false

/-- The trace of `runMain envIdle 3 ["p", "5", "e", "b", "dir"]`: the
delete branch with every delete failing, followed by a successful launch. -/
def traceIdle : List Event :=
  [Event.print "Waiting for PID 5 to exit...\n",
   Event.print "PID 5 is no longer running, proceeding to launch Anki.\n",
   Event.print "Deleting addon directory dir...\n",
   Event.shFileOp "dir",
   Event.print "Recycle bin failed, attempting permanent deletion...\n",
   Event.deleteFile "dir",
   Event.removeDirectory "dir",
   Event.print "Warning: Failed to delete addon directory\n",
   Event.print "Executing: cmd /c start /B \"\" \"e\" -b \"b\"\n",
   Event.createProcess "cmd /c start /B \"\" \"e\" -b \"b\"",
   Event.print "Anki launched successfully\n"]

/-- The trace of `runMain envIdle 3 ["p", "5", "e", "b", "x.ankiaddon"]`:
the package branch followed by a successful launch. -/
def tracePkg : List Event :=
  [Event.print "Waiting for PID 5 to exit...\n",
   Event.print "PID 5 is no longer running, proceeding to launch Anki.\n",
   Event.print "Installing addon from package x.ankiaddon...\n",
   Event.print "Executing: cmd /c start /B \"\" \"e\" -b \"b\" \"x.ankiaddon\"\n",
   Event.createProcess "cmd /c start /B \"\" \"e\" -b \"b\" \"x.ankiaddon\"",
   Event.print "Anki launched successfully\n"]

/-- The trace of `runMain envNoLaunch 3 ["p", "5", "e", "b", "dir"]`: a
successful recycle-bin delete followed by a failed launch. -/
def traceNoLaunch : List Event :=
  [Event.print "Waiting for PID 5 to exit...\n",
   Event.print "PID 5 is no longer running, proceeding to launch Anki.\n",
   Event.print "Deleting addon directory dir...\n",
   Event.shFileOp "dir",
   Event.print "Executing: cmd /c start /B \"\" \"e\" -b \"b\"\n",
   Event.createProcess "cmd /c start /B \"\" \"e\" -b \"b\"",
   Event.print "Error: Failed to launch Anki\n"]

/-- The head character of an appended string is the head of its non-empty
left part. -/
theorem head_append (a c : String) (x : Char) (h : a.data.head? = some x) :
    (a ++ c).data.head? = some x := by
  rw [String.data_append]
  cases ha : a.data with
  | nil => rw [ha] at h; simp at h
  | cons y ys =>
    rw [ha] at h
    simp at h
    subst h
    rfl

/-- Head character through two appends. -/
theorem head_append2 (a b c : String) (x : Char) (h : a.data.head? = some x) :
    (a ++ b ++ c).data.head? = some x :=
  head_append (a ++ b) c x (head_append a b x h)

/-- Events with distinct printed first characters are distinct. -/
theorem not_mem_of_printedFirstChar {e : Event} {l : List Event} {c : Char}
    (he : printedFirstChar e = some c)
    (hl : ∀ x ∈ l, printedFirstChar x ≠ some c) : e ∉ l :=
  fun hmem => hl e hmem (by rw [← he])

/-- Every event of the wait-loop trace is the still-running line or the
500 ms sleep. -/
theorem mem_waitEvents {pid : Nat} {m : Nat} {e : Event} (h : e ∈ waitEvents pid m) :
    e = Event.print (stillMsg pid) ∨ e = Event.sleep 500 := by
  induction m with
  | zero => simp [waitEvents] at h
  | succ m ih =>
    simp only [waitEvents, List.mem_cons] at h
    rcases h with h | h | h
    · exact Or.inl h
    · exact Or.inr h
    · exact ih h

/-- Soundness of the fuelled wait loop: a `some` result identifies the
first poll at which the process is observed gone, every earlier poll from
the start index on observed it running, and the trace is one printed line
and one 500 ms sleep per running-iteration. -/
theorem waitLoop_sound (env : Env) (pid : Nat) :
    ∀ fuel k n evs, waitLoop env pid fuel k = some (n, evs) →
      k ≤ n ∧ is_process_running (env.query n) = false ∧
      (∀ j, k ≤ j → j < n → is_process_running (env.query j) = true) ∧
      evs = waitEvents pid (n - k) := by
  intro fuel
  induction fuel with
  | zero =>
    intro k n evs h
    unfold waitLoop at h
    split at h
    · exact absurd h (by simp)
    · rename_i hrun
      simp only [Option.some.injEq, Prod.mk.injEq] at h
      obtain ⟨h1, h2⟩ := h
      subst h1; subst h2
      refine ⟨le_refl _, by simpa using hrun, fun j hj1 hj2 => absurd (lt_of_le_of_lt hj1 hj2) (lt_irrefl _), by simp [waitEvents]⟩
  | succ f ih =>
    intro k n evs h
    unfold waitLoop at h
    split at h
    · rename_i hrun
      cases hw : waitLoop env pid f (k + 1) with
      | none => rw [hw] at h; exact absurd h (by simp)
      | some p =>
        rw [hw] at h
        obtain ⟨h1, h2, h3, h4⟩ := ih (k + 1) p.1 p.2 (by rw [hw])
        simp only [Option.some.injEq, Prod.mk.injEq] at h
        obtain ⟨hn, hevs⟩ := h
        subst hn
        refine ⟨le_trans (Nat.le_succ k) h1, h2, ?_, ?_⟩
        · intro j hj1 hj2
          rcases Nat.eq_or_lt_of_le hj1 with hj | hj
          · subst hj; simpa using hrun
          · exact h3 j hj hj2
        · have hnk : p.1 - k = (p.1 - (k + 1)) + 1 := by omega
          rw [← hevs, hnk, waitEvents, h4]
    · rename_i hrun
      simp only [Option.some.injEq, Prod.mk.injEq] at h
      obtain ⟨h1, h2⟩ := h
      subst h1; subst h2
      refine ⟨le_refl _, by simpa using hrun, fun j hj1 hj2 => absurd (lt_of_le_of_lt hj1 hj2) (lt_irrefl _), by simp [waitEvents]⟩

/-- If the process is observed running at every poll, no amount of fuel
makes the wait loop return. -/
theorem waitLoop_none (env : Env) (pid : Nat)
    (h : ∀ k, is_process_running (env.query k) = true) :
    ∀ fuel k, waitLoop env pid fuel k = none := by
  intro fuel
  induction fuel with
  | zero => intro k; simp [waitLoop, h k]
  | succ f ih => intro k; simp [waitLoop, h k, ih (k + 1)]

/-- A pid argument with no digits where `atol` looks for them parses to 0. -/
theorem atol_eq_zero_of_nonNumeric (s : String) (h : nonNumeric s = true) :
    atol s = 0 := by
  unfold nonNumeric at h
  unfold atol
  cases hd : s.data.dropWhile isCSpace with
  | nil => rfl
  | cons c rest =>
    rw [hd] at h
    dsimp only at h ⊢
    by_cases hc : c = '-' ∨ c = '+'
    · rw [if_pos hc] at h
      cases rest with
      | nil =>
        rcases hc with hc | hc <;> subst hc <;> simp [atolDigits]
      | cons d ds =>
        have hdd : d.isDigit = false := by simpa using h
        rcases hc with hc | hc <;> subst hc <;> simp [atolDigits, hdd]
    · rw [if_neg hc] at h
      have hcd : c.isDigit = false := by simpa using h
      push_neg at hc
      simp [hc.1, hc.2, atolDigits, hcd]

/-- Strings whose head characters differ are different. -/
theorem string_ne_of_head {s t : String} {x y : Char}
    (hs : s.data.head? = some x) (ht : t.data.head? = some y) (hxy : x ≠ y) :
    s ≠ t := by
  intro h
  subst h
  rw [hs] at ht
  exact hxy (Option.some.inj ht)

/-- Print events whose messages start with different characters differ. -/
theorem print_ne_of_head {s t : String} {x y : Char}
    (hs : s.data.head? = some x) (ht : t.data.head? = some y) (hxy : x ≠ y) :
    Event.print s ≠ Event.print t := by
  intro h
  exact string_ne_of_head hs ht hxy (by injection h)

/-- Shape of every terminating run that passes argument validation: the
wait loop returns at the first poll observing the process gone, the trace
is the waiting lines, the suffix-directed branch, the launch, and the
final status line, and the exit code is decided by CreateProcessA. -/
theorem runMain_shape (env : Env) (fuel : Nat)
    (prog pidArg anki_exe anki_base arg4 : String) (code : Int) (evs : List Event)
    (hpid : toDWORD (atol pidArg) ≠ 0)
    (hrun : runMain env fuel [prog, pidArg, anki_exe, anki_base, arg4] = some (code, evs)) :
    ∃ n : Nat,
      waitLoop env (toDWORD (atol pidArg)) fuel 0 =
        some (n, waitEvents (toDWORD (atol pidArg)) n) ∧
      is_process_running (env.query n) = false ∧
      (∀ k, k < n → is_process_running (env.query k) = true) ∧
      code = (if env.createProcessOk = true then (0 : Int) else 1) ∧
      evs = Event.print ("Waiting for PID " ++ toString (toDWORD (atol pidArg)) ++ " to exit...\n") ::
        waitEvents (toDWORD (atol pidArg)) n ++
        Event.print ("PID " ++ toString (toDWORD (atol pidArg)) ++
          " is no longer running, proceeding to launch Anki.\n") ::
        (if ends_with (some arg4) (some ".ankiaddon") then
          [Event.print ("Installing addon from package " ++ arg4 ++ "...\n")]
        else
          Event.print ("Deleting addon directory " ++ arg4 ++ "...\n") ::
            (send_to_trash env arg4).2 ++
            (if (send_to_trash env arg4).1 then []
             else [Event.print "Warning: Failed to delete addon directory\n"])) ++
        Event.print ("Executing: " ++ snprintfTrunc 2047 (fullCommand anki_exe anki_base
            (if ends_with (some arg4) (some ".ankiaddon") then some arg4 else none)) ++ "\n") ::
        Event.createProcess (snprintfTrunc 2047 (fullCommand anki_exe anki_base
            (if ends_with (some arg4) (some ".ankiaddon") then some arg4 else none))) ::
        [if env.createProcessOk = true then Event.print "Anki launched successfully\n"
         else Event.print "Error: Failed to launch Anki\n"] := by
  simp only [runMain] at hrun
  rw [if_neg hpid] at hrun
  cases hw : waitLoop env (toDWORD (atol pidArg)) fuel 0 with
  | none => rw [hw] at hrun; exact absurd hrun (by simp)
  | some w =>
    obtain ⟨n, wevs⟩ := w
    obtain ⟨-, h2, h3, h4⟩ :=
      waitLoop_sound env (toDWORD (atol pidArg)) fuel 0 n wevs hw
    rw [Nat.sub_zero] at h4
    subst h4
    rw [hw] at hrun
    dsimp only at hrun
    dsimp only [launch_anki] at hrun
    refine ⟨n, rfl, h2, fun k hk => h3 k (Nat.zero_le k) hk, ?_, ?_⟩
    · cases hcp : env.createProcessOk <;> rw [hcp] at hrun <;> simp at hrun ⊢ <;>
        exact hrun.1.symm
    · cases hew : ends_with (some arg4) (some ".ankiaddon") <;>
        rw [hew] at hrun <;>
        cases hcp : env.createProcessOk <;>
        rw [hcp] at hrun <;>
        simp at hrun ⊢ <;>
        rw [← hrun.2]

/-- A print-only event neither deletes nor launches. -/
theorem isPrint_no_side (e : Event) (h : isPrint e = true) :
    isDeleteEvent e = false ∧ isLaunchEvent e = false := by
  cases e <;> simp_all [isPrint, isDeleteEvent, isLaunchEvent]

/-- The usage text consists of print events only. -/
theorem print_usage_prints (p : String) : ∀ e ∈ print_usage p, isPrint e = true := by
  intro e he
  simp only [print_usage, List.mem_cons, List.not_mem_nil, or_false] at he
  rcases he with h | h | h | h | h | h | h <;> subst h <;> rfl

/-- Every event `send_to_trash` records is a filesystem call (no printed
line) or the "Recycle bin failed" line. -/
theorem send_to_trash_events (env : Env) (path : String) :
    ∀ e ∈ (send_to_trash env path).2,
      printedFirstChar e = none ∨ printedFirstChar e = some 'R' := by
  intro e he
  unfold send_to_trash at he
  split at he
  · simp at he
  · split at he
    · simp at he
    · split at he
      · split at he
        · simp only [List.mem_cons, List.not_mem_nil, or_false] at he
          rcases he with h | h | h <;> subst h <;>
            first | exact Or.inl rfl | exact Or.inr rfl
        · split at he <;>
            · simp only [List.mem_cons, List.not_mem_nil, or_false] at he
              rcases he with h | h | h | h <;> subst h <;>
                first | exact Or.inl rfl | exact Or.inr rfl
      · simp only [List.mem_cons, List.not_mem_nil, or_false] at he
        subst he
        exact Or.inl rfl

/-- C4 (counterexample): the claim says every empty input yields false,
but `ends_with` with an empty suffix returns true: for a zero-length
suffix the final `strcmp` compares the terminating NUL with itself. -/
theorem ends_with_empty_suffix_cex : ends_with (some "foo") (some "") = true := by
  decide

/-- C4 (amended): `ends_with("foo.ankiaddon", ".ankiaddon")` is true,
`ends_with("foo.zip", ".ankiaddon")` is false, `ends_with("", ".ankiaddon")`
is false, every NULL input yields false, and an empty string tested against
a non-empty suffix yields false; an empty suffix, however, matches every
non-NULL string (result true).  The function is total, so it never faults. -/
theorem ends_with_spec :
    ends_with (some "foo.ankiaddon") (some ".ankiaddon") = true ∧
    ends_with (some "foo.zip") (some ".ankiaddon") = false ∧
    ends_with (some "") (some ".ankiaddon") = false ∧
    (∀ x, ends_with none x = false) ∧
    (∀ x, ends_with x none = false) ∧
    (∀ suf : String, suf ≠ "" → ends_with (some "") (some suf) = false) ∧
    (∀ s : String, ends_with (some s) (some "") = true) := by
  refine ⟨by decide, by decide, by decide, ?_, ?_, ?_, ?_⟩
  · intro x; cases x <;> rfl
  · intro x; cases x <;> rfl
  · intro suf hsuf
    have hne : suf.data ≠ [] := by
      intro hnil
      apply hsuf
      cases suf with
      | mk l => simp at hnil; rw [hnil]
    have hpos : ("" : String).data.length < suf.data.length := by
      have := List.length_pos.mpr hne
      simpa using this
    unfold ends_with
    dsimp only
    rw [if_pos hpos]
  · intro s
    unfold ends_with
    dsimp only
    have h1 : ¬ (("" : String).data.length > s.data.length) := by simp
    rw [if_neg h1]
    show (s.data.drop (s.data.length - ("" : String).data.length) == ("" : String).data) = true
    have h2 : ("" : String).data = [] := rfl
    rw [h2, List.length_nil, Nat.sub_zero, List.drop_length]
    rfl

/-- C4 (witness). -/
theorem ends_with_spec_witness :
    ("a" : String) ≠ "" ∧ ends_with (some "") (some "a") = false :=
  ⟨by decide, ends_with_spec.2.2.2.2.2.1 "a" (by decide)⟩

/-- C5: a pid whose handle cannot be opened (OpenProcess NULL, e.g. the
process never existed or access is denied) is reported not running, and
whenever the very first poll observes the process not running the wait
loop returns at once with an empty trace: no sleep iterations. -/
theorem wait_not_running :
    (∀ q : ProcQuery, q.openOk = false → is_process_running q = false) ∧
    (∀ env : Env, ∀ pid fuel : Nat, is_process_running (env.query 0) = false →
      waitLoop env pid fuel 0 = some (0, [])) := by
  constructor
  · intro q hq
    simp [is_process_running, hq]
  · intro env pid fuel h
    cases fuel with
    | zero => simp [waitLoop, h]
    | succ f => simp [waitLoop, h]

/-- C5 (witness). -/
theorem wait_not_running_witness :
    is_process_running ((envIdle.query 0)) = false ∧
    waitLoop envIdle 7 5 0 = some (0, []) :=
  ⟨by decide, wait_not_running.2 envIdle 7 5 (by decide)⟩

/-- C9: `launch_anki` with a NULL package file and with an empty-string
package file format the identical command (the `package_file &&
strlen(package_file) > 0` guard rejects both), so the whole launch
behaves identically. -/
theorem launch_null_eq_empty (env : Env) (anki_exe anki_base : String) :
    fullCommand anki_exe anki_base none = fullCommand anki_exe anki_base (some "") ∧
    launch_anki env anki_exe anki_base none = launch_anki env anki_exe anki_base (some "") := by
  constructor
  · rfl
  · rfl

/-- C10: the command `launch_anki` hands to CreateProcessA is at most 2047
characters; when the formatted text is longer, `snprintf` silently
truncates it to its first 2047 characters, and when it fits it is passed
through unchanged. -/
theorem launch_command_bounded (anki_exe anki_base : String) (pkg : Option String) :
    (snprintfTrunc 2047 (fullCommand anki_exe anki_base pkg)).length ≤ 2047 ∧
    ((fullCommand anki_exe anki_base pkg).data.length > 2047 →
      snprintfTrunc 2047 (fullCommand anki_exe anki_base pkg) =
        String.mk ((fullCommand anki_exe anki_base pkg).data.take 2047)) ∧
    ((fullCommand anki_exe anki_base pkg).data.length ≤ 2047 →
      snprintfTrunc 2047 (fullCommand anki_exe anki_base pkg) =
        fullCommand anki_exe anki_base pkg) := by
  refine ⟨?_, fun _ => rfl, ?_⟩
  · show (String.mk ((fullCommand anki_exe anki_base pkg).data.take 2047)).length ≤ 2047
    show ((fullCommand anki_exe anki_base pkg).data.take 2047).length ≤ 2047
    rw [List.length_take]
    exact Nat.min_le_left _ _
  · intro h
    show String.mk ((fullCommand anki_exe anki_base pkg).data.take 2047) = _
    rw [List.take_of_length_le h]

/-- C10 (witness): a 3000-character executable path overflows the buffer
and is truncated; a short one is passed through. -/
theorem launch_command_bounded_witness :
    (fullCommand longPath "b" none).data.length > 2047 ∧
    snprintfTrunc 2047 (fullCommand longPath "b" none) =
      String.mk ((fullCommand longPath "b" none).data.take 2047) ∧
    (fullCommand "e" "b" none).data.length ≤ 2047 ∧
    snprintfTrunc 2047 (fullCommand "e" "b" none) = fullCommand "e" "b" none := by
  have hbig : (fullCommand longPath "b" none).data.length > 2047 := by
    show (fullCommand longPath "b" none).length > 2047
    have heq : fullCommand longPath "b" none =
        "cmd /c start /B \"\" \"" ++ longPath ++ "\" -b \"" ++ "b" ++ "\"" := rfl
    rw [heq, String.length_append, String.length_append, String.length_append,
      String.length_append]
    have hl : longPath.length = 3000 := by
      show (List.replicate 3000 'a').length = 3000
      rw [List.length_replicate]
    rw [hl]
    decide
  exact ⟨hbig, (launch_command_bounded longPath "b" none).2.1 hbig,
    by decide, (launch_command_bounded "e" "b" none).2.2 (by decide)⟩

/-- C3: with any argument count other than five the program prints the
usage text and exits 1; with a pid argument equal to "0" or non-numeric it
prints an error line and exits 1; in both cases the whole trace is print
events only, so no wait, no delete and no launch is attempted. -/
theorem usage_errors (env : Env) (fuel : Nat) :
    (∀ args : List String, args.length ≠ 5 →
      runMain env fuel args = some (1, print_usage (args.headD "")) ∧
      ∀ e ∈ print_usage (args.headD ""), isPrint e = true) ∧
    (∀ prog pidArg anki_exe anki_base arg4 : String,
      pidArg = "0" ∨ nonNumeric pidArg = true →
      runMain env fuel [prog, pidArg, anki_exe, anki_base, arg4] =
        some (1, [Event.print "Error: Invalid PID\n"]) ∧
      ∀ e ∈ [Event.print "Error: Invalid PID\n"], isPrint e = true) := by
  constructor
  · intro args h
    constructor
    · rcases args with _ | ⟨a, _ | ⟨b, _ | ⟨c, _ | ⟨d, _ | ⟨e, _ | ⟨f, rest⟩⟩⟩⟩⟩⟩
      · rfl
      · rfl
      · rfl
      · rfl
      · rfl
      · exact absurd rfl h
      · rfl
    · intro e he
      simp only [print_usage, List.mem_cons, List.not_mem_nil, or_false] at he
      rcases he with h1 | h1 | h1 | h1 | h1 | h1 | h1 <;> subst h1 <;> rfl
  · intro prog pidArg anki_exe anki_base arg4 hpid
    have h0 : toDWORD (atol pidArg) = 0 := by
      rcases hpid with h | h
      · subst h; decide
      · rw [atol_eq_zero_of_nonNumeric pidArg h]; decide
    refine ⟨?_, ?_⟩
    · simp only [runMain]
      rw [h0]
      simp
    · intro e he
      simp only [List.mem_cons, List.not_mem_nil, or_false] at he
      subst he
      rfl

/-- C1: when the UTF-16 conversion and allocation succeed, the
recycle-bin delete succeeding means the permanent-delete fallback is never
attempted and the result is success; when it fails and either fallback
call (DeleteFileA first, then RemoveDirectoryA) succeeds the result is
success; when all fail the result is failure and a terminating run that
reaches the delete step logs the warning and still reaches the relaunch
(CreateProcessA) step. -/
theorem delete_with_fallback (env : Env) (path : String)
    (hmb : env.mbLen ≠ 0) (hma : env.mallocOk = true) :
    (env.shResult = 0 →
      (send_to_trash env path).1 = true ∧
      ∀ e ∈ (send_to_trash env path).2, isFallbackEvent e = false) ∧
    (env.shResult ≠ 0 → (env.deleteFileOk = true ∨ env.removeDirOk = true) →
      (send_to_trash env path).1 = true) ∧
    (env.shResult ≠ 0 → env.deleteFileOk = false → env.removeDirOk = false →
      (send_to_trash env path).1 = false ∧
      (∀ fuel : Nat, ∀ prog pidArg anki_exe anki_base : String,
        ∀ code : Int, ∀ evs : List Event,
        toDWORD (atol pidArg) ≠ 0 →
        ends_with (some path) (some ".ankiaddon") = false →
        runMain env fuel [prog, pidArg, anki_exe, anki_base, path] = some (code, evs) →
        Event.print "Warning: Failed to delete addon directory\n" ∈ evs ∧
        ∃ cmd, Event.createProcess cmd ∈ evs)) := by
  refine ⟨?_, ?_, ?_⟩
  · intro hsh
    have hst : send_to_trash env path = (true, [Event.shFileOp path]) := by
      simp [send_to_trash, hmb, hma, hsh]
    rw [hst]
    refine ⟨rfl, ?_⟩
    intro e he
    simp only [List.mem_cons, List.not_mem_nil, or_false] at he
    subst he
    rfl
  · intro hsh hor
    rcases hor with h | h
    · simp [send_to_trash, hmb, hma, hsh, h]
    · by_cases hdf : env.deleteFileOk = true
      · simp [send_to_trash, hmb, hma, hsh, hdf]
      · simp [send_to_trash, hmb, hma, hsh, hdf, h]
  · intro hsh hdf hrd
    have hst : send_to_trash env path =
        (false, [Event.shFileOp path,
                 Event.print "Recycle bin failed, attempting permanent deletion...\n",
                 Event.deleteFile path, Event.removeDirectory path]) := by
      simp [send_to_trash, hmb, hma, hsh, hdf, hrd]
    refine ⟨by rw [hst], ?_⟩
    intro fuel prog pidArg anki_exe anki_base code evs hpid hew hrun
    obtain ⟨n, -, -, -, -, hevs⟩ :=
      runMain_shape env fuel prog pidArg anki_exe anki_base path code evs hpid hrun
    rw [hew] at hevs
    rw [hst] at hevs
    subst hevs
    constructor
    · simp
    · exact ⟨snprintfTrunc 2047 (fullCommand anki_exe anki_base none), by simp⟩

/-- C1 (witness): in `envIdle` the recycle bin and both fallback deletes
fail, and the run still reaches CreateProcessA. -/
theorem delete_with_fallback_witness :
    (send_to_trash envIdle "dir").1 = false ∧
    Event.print "Warning: Failed to delete addon directory\n" ∈ traceIdle ∧
    ∃ cmd, Event.createProcess cmd ∈ traceIdle := by
  have h := (delete_with_fallback envIdle "dir" (by decide) rfl).2.2
    (by decide) rfl rfl
  refine ⟨h.1, h.2 3 "p" "5" "e" "b" 0 traceIdle (by decide) (by decide) (by decide)⟩

/-- C7: every successful run hands CreateProcessA the detached background
command quoting the executable with the `-b <anki_base>` argument, and the
package path is appended as one further trailing quoted argument exactly
when the branch selector staged a package. -/
theorem launch_command_shape (env : Env) (fuel : Nat)
    (prog pidArg anki_exe anki_base arg4 : String) (evs : List Event)
    (hrun : runMain env fuel [prog, pidArg, anki_exe, anki_base, arg4] = some (0, evs)) :
    Event.createProcess (snprintfTrunc 2047 (fullCommand anki_exe anki_base
      (if ends_with (some arg4) (some ".ankiaddon") then some arg4 else none))) ∈ evs ∧
    (ends_with (some arg4) (some ".ankiaddon") = true →
      fullCommand anki_exe anki_base (some arg4) =
        "cmd /c start /B \"\" \"" ++ anki_exe ++ "\" -b \"" ++ anki_base ++ "\" \"" ++
          arg4 ++ "\"") ∧
    fullCommand anki_exe anki_base none =
      "cmd /c start /B \"\" \"" ++ anki_exe ++ "\" -b \"" ++ anki_base ++ "\"" := by
  have hpid : toDWORD (atol pidArg) ≠ 0 := by
    intro h0
    simp only [runMain] at hrun
    rw [h0] at hrun
    simp at hrun
  obtain ⟨n, -, -, -, -, hevs⟩ :=
    runMain_shape env fuel prog pidArg anki_exe anki_base arg4 0 evs hpid hrun
  refine ⟨?_, ?_, rfl⟩
  · subst hevs
    cases hew : ends_with (some arg4) (some ".ankiaddon") <;> simp
  · intro hew
    have hlen : arg4.data.length > 0 := by
      unfold ends_with at hew
      dsimp only at hew
      by_cases hc : (".ankiaddon" : String).data.length > arg4.data.length
      · rw [if_pos hc] at hew
        exact absurd hew (by simp)
      · have h10 : (".ankiaddon" : String).data.length = 10 := by decide
        omega
    unfold fullCommand
    dsimp only
    rw [if_pos hlen]

/-- C7 (witness). -/
theorem launch_command_shape_witness :
    Event.createProcess (snprintfTrunc 2047 (fullCommand "e" "b"
      (if ends_with (some "x.ankiaddon") (some ".ankiaddon") then some "x.ankiaddon"
       else none))) ∈ tracePkg ∧
    fullCommand "e" "b" (some "x.ankiaddon") =
      "cmd /c start /B \"\" \"" ++ "e" ++ "\" -b \"" ++ "b" ++ "\" \"" ++
        "x.ankiaddon" ++ "\"" ∧
    fullCommand "e" "b" none = "cmd /c start /B \"\" \"" ++ "e" ++ "\" -b \"" ++ "b" ++ "\"" := by
  have h := launch_command_shape envIdle 3 "p" "5" "e" "b" "x.ankiaddon" tracePkg (by decide)
  exact ⟨h.1, h.2.1 (by decide), h.2.2⟩

/-- C8: for every terminating run that reaches the relaunch step, the exit
code is 0 exactly when CreateProcessA reports success: on failure the code
is 1 and the error line is printed, on success the code is 0 and the
success line is printed; no other condition decides the outcome. -/
theorem launch_failure_fatal (env : Env) (fuel : Nat)
    (prog pidArg anki_exe anki_base arg4 : String) (code : Int) (evs : List Event)
    (hrun : runMain env fuel [prog, pidArg, anki_exe, anki_base, arg4] = some (code, evs))
    (hreach : ∃ cmd, Event.createProcess cmd ∈ evs) :
    (code = 0 ↔ env.createProcessOk = true) ∧
    (env.createProcessOk = false →
      code = 1 ∧ Event.print "Error: Failed to launch Anki\n" ∈ evs) ∧
    (env.createProcessOk = true →
      code = 0 ∧ Event.print "Anki launched successfully\n" ∈ evs) := by
  have hpid : toDWORD (atol pidArg) ≠ 0 := by
    intro h0
    simp only [runMain] at hrun
    rw [h0] at hrun
    simp at hrun
    obtain ⟨cmd, hcmd⟩ := hreach
    rw [← hrun.2] at hcmd
    simp at hcmd
  obtain ⟨n, -, -, -, hcode, hevs⟩ :=
    runMain_shape env fuel prog pidArg anki_exe anki_base arg4 code evs hpid hrun
  subst hevs
  cases hcp : env.createProcessOk
  · rw [hcp] at hcode
    simp at hcode
    subst hcode
    refine ⟨by simp, fun _ => ⟨rfl, by simp⟩, fun h => absurd h (by simp)⟩
  · rw [hcp] at hcode
    simp at hcode
    subst hcode
    refine ⟨by simp, fun h => absurd h (by simp), fun _ => ⟨rfl, by simp⟩⟩

/-- C8 (witness). -/
theorem launch_failure_fatal_witness :
    ((1 : Int) = 0 ↔ envNoLaunch.createProcessOk = true) ∧
    (1 : Int) = 1 ∧ Event.print "Error: Failed to launch Anki\n" ∈ traceNoLaunch := by
  have h := launch_failure_fatal envNoLaunch 3 "p" "5" "e" "b" "dir" 1 traceNoLaunch
    (by decide) ⟨"cmd /c start /B \"\" \"e\" -b \"b\"", by decide⟩
  exact ⟨h.1, h.2.1 rfl⟩

/-- C6: whenever the wait loop returns, the final poll observed the
process gone and every earlier poll observed it running, with exactly one
print and one fixed 500 ms sleep per running-iteration between consecutive
polls; if every poll observes the process running, no amount of fuel makes
the loop return, and no terminating run of the program deletes anything or
launches anything. -/
theorem wait_until_exit (env : Env) (pid : Nat) :
    (∀ fuel n evs, waitLoop env pid fuel 0 = some (n, evs) →
      is_process_running (env.query n) = false ∧
      (∀ k, k < n → is_process_running (env.query k) = true) ∧
      evs = waitEvents pid n) ∧
    ((∀ k, is_process_running (env.query k) = true) →
      (∀ fuel, waitLoop env pid fuel 0 = none) ∧
      (∀ fuel : Nat, ∀ args : List String, ∀ code : Int, ∀ evs : List Event,
        runMain env fuel args = some (code, evs) →
        ∀ e ∈ evs, isDeleteEvent e = false ∧ isLaunchEvent e = false)) := by
  constructor
  · intro fuel n evs h
    obtain ⟨-, h2, h3, h4⟩ := waitLoop_sound env pid fuel 0 n evs h
    exact ⟨h2, fun k hk => h3 k (Nat.zero_le k) hk, by rw [h4, Nat.sub_zero]⟩
  · intro hall
    refine ⟨fun fuel => waitLoop_none env pid hall fuel 0, ?_⟩
    intro fuel args code evs hrun
    rcases args with _ | ⟨p1, _ | ⟨p2, _ | ⟨p3, _ | ⟨p4, _ | ⟨p5, _ | ⟨p6, rest⟩⟩⟩⟩⟩⟩
    · have h2 : print_usage (([] : List String).headD "") = evs :=
        congrArg Prod.snd (Option.some.inj hrun)
      intro e he
      rw [← h2] at he
      exact isPrint_no_side e (print_usage_prints _ e he)
    · have h2 : print_usage ([p1].headD "") = evs :=
        congrArg Prod.snd (Option.some.inj hrun)
      intro e he
      rw [← h2] at he
      exact isPrint_no_side e (print_usage_prints _ e he)
    · have h2 : print_usage ([p1, p2].headD "") = evs :=
        congrArg Prod.snd (Option.some.inj hrun)
      intro e he
      rw [← h2] at he
      exact isPrint_no_side e (print_usage_prints _ e he)
    · have h2 : print_usage ([p1, p2, p3].headD "") = evs :=
        congrArg Prod.snd (Option.some.inj hrun)
      intro e he
      rw [← h2] at he
      exact isPrint_no_side e (print_usage_prints _ e he)
    · have h2 : print_usage ([p1, p2, p3, p4].headD "") = evs :=
        congrArg Prod.snd (Option.some.inj hrun)
      intro e he
      rw [← h2] at he
      exact isPrint_no_side e (print_usage_prints _ e he)
    · by_cases hp : toDWORD (atol p2) = 0
      · simp only [runMain] at hrun
        rw [hp] at hrun
        simp only [if_pos] at hrun
        have h2 : ([Event.print "Error: Invalid PID\n"] : List Event) = evs := by
          have := Option.some.inj hrun
          exact congrArg Prod.snd this
        intro e he
        rw [← h2] at he
        simp only [List.mem_cons, List.not_mem_nil, or_false] at he
        subst he
        exact ⟨rfl, rfl⟩
      · simp only [runMain] at hrun
        rw [if_neg hp, waitLoop_none env (toDWORD (atol p2)) hall fuel 0] at hrun
        exact absurd hrun (by simp)
    · have h2 : print_usage ((p1 :: p2 :: p3 :: p4 :: p5 :: p6 :: rest).headD "") = evs :=
        congrArg Prod.snd (Option.some.inj hrun)
      intro e he
      rw [← h2] at he
      exact isPrint_no_side e (print_usage_prints _ e he)

/-- C6 (witness): in `envBusy` the process is observed running for the
first two polls and gone at the third. -/
theorem wait_until_exit_witness :
    is_process_running (envBusy.query 2) = false ∧
    (∀ k, k < 2 → is_process_running (envBusy.query k) = true) ∧
    ([Event.print (stillMsg 7), Event.sleep 500,
      Event.print (stillMsg 7), Event.sleep 500] : List Event) = waitEvents 7 2 :=
  (wait_until_exit envBusy 7).1 5 2
    [Event.print (stillMsg 7), Event.sleep 500, Event.print (stillMsg 7), Event.sleep 500]
    (by decide)

/-- The first character a print event writes. -/
theorem pfc_print (s : String) : printedFirstChar (Event.print s) = s.data.head? := rfl

/-- C2: in every terminating validated run, the case-sensitive suffix
test against ".ankiaddon" decides between exactly two mutually exclusive
actions: a path ending in the suffix is staged as a package (the trace
holds no filesystem-delete call and the package rides the launch command),
while any other path takes the delete branch (no package argument reaches
the launch command); the "Installing" and "Deleting" lines mark the two
actions and exactly one of them appears. -/
theorem branch_selector (env : Env) (fuel : Nat)
    (prog pidArg anki_exe anki_base arg4 : String) (code : Int) (evs : List Event)
    (hpid : toDWORD (atol pidArg) ≠ 0)
    (hrun : runMain env fuel [prog, pidArg, anki_exe, anki_base, arg4] = some (code, evs)) :
    (ends_with (some arg4) (some ".ankiaddon") = true →
      (∀ e ∈ evs, isDeleteEvent e = false) ∧
      Event.createProcess (snprintfTrunc 2047 (fullCommand anki_exe anki_base (some arg4))) ∈ evs) ∧
    (ends_with (some arg4) (some ".ankiaddon") = false →
      Event.createProcess (snprintfTrunc 2047 (fullCommand anki_exe anki_base none)) ∈ evs ∧
      Event.print ("Deleting addon directory " ++ arg4 ++ "...\n") ∈ evs) ∧
    ((Event.print ("Installing addon from package " ++ arg4 ++ "...\n") ∈ evs ∧
      Event.print ("Deleting addon directory " ++ arg4 ++ "...\n") ∉ evs) ∨
     (Event.print ("Deleting addon directory " ++ arg4 ++ "...\n") ∈ evs ∧
      Event.print ("Installing addon from package " ++ arg4 ++ "...\n") ∉ evs)) := by
  obtain ⟨n, -, -, -, -, hevs⟩ :=
    runMain_shape env fuel prog pidArg anki_exe anki_base arg4 code evs hpid hrun
  have hD : ("Deleting addon directory " ++ arg4 ++ "...\n").data.head? = some 'D' :=
    head_append2 _ _ _ _ (by decide)
  have hI : ("Installing addon from package " ++ arg4 ++ "...\n").data.head? = some 'I' :=
    head_append2 _ _ _ _ (by decide)
  have hWmsg : ("Waiting for PID " ++ toString (toDWORD (atol pidArg)) ++
      " to exit...\n").data.head? = some 'W' :=
    head_append2 _ _ _ _ (by decide)
  have hNmsg : ("PID " ++ toString (toDWORD (atol pidArg)) ++
      " is no longer running, proceeding to launch Anki.\n").data.head? = some 'P' :=
    head_append2 _ _ _ _ (by decide)
  have hSmsg : (stillMsg (toDWORD (atol pidArg))).data.head? = some 'P' :=
    head_append2 _ _ _ _ (by decide)
  have hEmsg : ∀ s : String, ("Executing: " ++ s ++ "\n").data.head? = some 'E' :=
    fun s => head_append2 _ _ _ _ (by decide)
  have hWarn : ("Warning: Failed to delete addon directory\n").data.head? = some 'W' := by
    decide
  have hA : ("Anki launched successfully\n").data.head? = some 'A' := by decide
  have hErr : ("Error: Failed to launch Anki\n").data.head? = some 'E' := by decide
  cases hew : ends_with (some arg4) (some ".ankiaddon")
  case false =>
    rw [hew] at hevs
    simp only [Bool.false_eq_true, if_false] at hevs
    have hInotin :
        Event.print ("Installing addon from package " ++ arg4 ++ "...\n") ∉ evs := by
      rw [hevs]
      intro hmem
      simp only [List.mem_cons, List.mem_append, List.not_mem_nil, or_false, or_assoc] at hmem
      rcases hmem with h | h | h | h | h | h | h | h | h
      · exact absurd h (print_ne_of_head hI hWmsg (by decide))
      · rcases mem_waitEvents h with h1 | h1
        · exact absurd h1 (print_ne_of_head hI hSmsg (by decide))
        · exact Event.noConfusion h1
      · exact absurd h (print_ne_of_head hI hNmsg (by decide))
      · exact absurd h (print_ne_of_head hI hD (by decide))
      · rcases send_to_trash_events env arg4 _ h with h1 | h1
        · rw [pfc_print, hI] at h1; exact Option.noConfusion h1
        · rw [pfc_print, hI] at h1
          exact absurd (Option.some.inj h1) (by decide)
      · split at h
        · simp at h
        · simp only [List.mem_cons, List.not_mem_nil, or_false] at h
          exact absurd h (print_ne_of_head hI hWarn (by decide))
      · exact absurd h (print_ne_of_head hI (hEmsg _) (by decide))
      · exact Event.noConfusion h
      · split at h
        · exact absurd h (print_ne_of_head hI hA (by decide))
        · exact absurd h (print_ne_of_head hI hErr (by decide))
    refine ⟨fun h' => absurd h' (by simp), fun _ => ⟨?_, ?_⟩, ?_⟩
    · rw [hevs]; simp
    · rw [hevs]; simp
    · exact Or.inr ⟨by rw [hevs]; simp, hInotin⟩
  case true =>
    rw [hew] at hevs
    simp only [if_true] at hevs
    have hDnotin :
        Event.print ("Deleting addon directory " ++ arg4 ++ "...\n") ∉ evs := by
      rw [hevs]
      intro hmem
      simp only [List.mem_cons, List.mem_append, List.not_mem_nil, or_false, or_assoc] at hmem
      rcases hmem with h | h | h | h | h | h | h
      · exact absurd h (print_ne_of_head hD hWmsg (by decide))
      · rcases mem_waitEvents h with h1 | h1
        · exact absurd h1 (print_ne_of_head hD hSmsg (by decide))
        · exact Event.noConfusion h1
      · exact absurd h (print_ne_of_head hD hNmsg (by decide))
      · exact absurd h (print_ne_of_head hD hI (by decide))
      · exact absurd h (print_ne_of_head hD (hEmsg _) (by decide))
      · exact Event.noConfusion h
      · split at h
        · exact absurd h (print_ne_of_head hD hA (by decide))
        · exact absurd h (print_ne_of_head hD hErr (by decide))
    refine ⟨fun _ => ⟨?_, ?_⟩, fun h' => absurd h' (by simp), ?_⟩
    · intro e he
      rw [hevs] at he
      simp only [List.mem_cons, List.mem_append, List.not_mem_nil, or_false, or_assoc] at he
      rcases he with h | h | h | h | h | h | h
      · subst h; rfl
      · rcases mem_waitEvents h with h1 | h1 <;> subst h1 <;> rfl
      · subst h; rfl
      · subst h; rfl
      · subst h; rfl
      · subst h; rfl
      · subst h; split <;> rfl
    · rw [hevs]; simp
    · exact Or.inl ⟨by rw [hevs]; simp, hDnotin⟩

/-- C2 (witness). -/
theorem branch_selector_witness :
    (Event.print ("Installing addon from package " ++ "dir" ++ "...\n") ∈ traceIdle ∧
     Event.print ("Deleting addon directory " ++ "dir" ++ "...\n") ∉ traceIdle) ∨
    (Event.print ("Deleting addon directory " ++ "dir" ++ "...\n") ∈ traceIdle ∧
     Event.print ("Installing addon from package " ++ "dir" ++ "...\n") ∉ traceIdle) :=
  (branch_selector envIdle 3 "p" "5" "e" "b" "dir" 0 traceIdle (by decide) (by decide)).2.2

/-- C3 (witness). -/
theorem usage_errors_witness :
    runMain envIdle 3 ["p"] = some (1, print_usage "p") ∧
    runMain envIdle 3 ["p", "0", "e", "b", "d"] =
      some (1, [Event.print "Error: Invalid PID\n"]) :=
  ⟨((usage_errors envIdle 3).1 ["p"] (by decide)).1,
   ((usage_errors envIdle 3).2 "p" "0" "e" "b" "d" (Or.inl rfl)).1⟩

end RestartAnki
